import Mathlib

/-!
Verification of the long-text segmentation and generation orchestration layer
of a TTS engine (fast_tts/engine/base_engine.py and the segmentation utility
it delegates to).

The file embeds, shallowly:
* the text Segmenter (split_text) together with its default sentence splitter,
* the BaseEngine facade that wires the generator tokenizer into the Segmenter,
* the declared caller-facing interface (entry points, parameters, defaults),
* the batch and streaming per-chunk orchestration loops.
-/

namespace FastTTS

/-- Characters treated as sentence terminators by the default splitter.
Modelled from the spec: the built-in sentence boundary detector is described
only as based on terminal punctuation; we use the standard ASCII and CJK
sentence terminators. -/
def isSentenceEnd (c : Char) : Bool :=
  c = '.' || c = '!' || c = '?' || c = ';' ||
  c = '。' || c = '！' || c = '？' || c = '；'

/-- Core of the default sentence splitter, working on the character list of
the text. `acc` holds the characters of the sentence currently being read, in
reverse order. A terminator closes the current sentence (keeping the
terminator attached); a trailing run without terminator becomes a final unit.
Modelled from the spec: the concrete default splitter lives in
fast_tts/engine/utils.py, which is not part of the visible source. -/
def splitChars (acc : List Char) : List Char → List (List Char)
  | [] => if acc.isEmpty then [] else [acc.reverse]
  | c :: cs =>
    if isSentenceEnd c then (acc.reverse ++ [c]) :: splitChars [] cs
    else splitChars (c :: acc) cs

/-- Default sentence-splitting function: text to ordered list of
sentence-like units. Modelled from the spec: it must handle standard sentence
terminators and neither drop nor reorder content. -/
def defaultSplit (s : String) : List String :=
  (splitChars [] s.data).map String.mk

/-- Concatenation of a list of strings, with no separator. -/
def joinAll : List String → String
  | [] => ""
  | s :: rest => s ++ joinAll rest

/-- Token count of a chunk, where a chunk is kept as its list of units and
the count of each unit is given by `count`. The cumulative count of a chunk
is the sum of the counts of its units. -/
def chunkTokens (count : String → Nat) (c : List String) : Nat :=
  (c.map count).sum

/-- Greedy accumulation pass of the Segmenter. `cur` is the chunk currently
being filled, in reverse unit order. A unit is added while the cumulative
token count stays within `w`; when adding the next unit would exceed `w` the
current chunk is closed and the unit starts a new chunk; a unit always starts
a chunk when the current chunk is empty, even if it alone exceeds `w`.
Modelled from the spec: steps 2-4 of the Segmenter algorithm in
fast_tts/engine/utils.py, not part of the visible source. -/
def accumulate (count : String → Nat) (w : Nat) :
    List String → List String → List (List String)
  | [], [] => []
  | cur@(_ :: _), [] => [cur.reverse]
  | [], u :: us => accumulate count w [u] us
  | cur@(_ :: _), u :: us =>
    if chunkTokens count cur + count u ≤ w then accumulate count w (u :: cur) us
    else cur.reverse :: accumulate count w [u] us

/-- Forward-merge pass of the Segmenter. `buf` accumulates consecutive chunks
whose running token count is below `thr`; once the running chunk reaches
`thr` it is emitted; a trailing sub-threshold buffer is kept as the final
chunk, having no successor to merge into. Modelled from the spec: step 5 of
the Segmenter algorithm in fast_tts/engine/utils.py, not part of the visible
source. -/
def mergeLoop (count : String → Nat) (thr : Nat) :
    List String → List (List String) → List (List String)
  | buf, [] => if buf.isEmpty then [] else [buf]
  | buf, c :: rest =>
    let merged := buf ++ c
    if chunkTokens count merged < thr then mergeLoop count thr merged rest
    else merged :: mergeLoop count thr [] rest

/-- The Segmenter pipeline at the level of chunks-as-unit-lists: split into
units, greedily accumulate, then forward-merge sub-threshold chunks. -/
def splitTextChunks (text : String) (window_size : Nat)
    (tokenize_fn : String → List Nat)
    (split_fn : Option (String → List String))
    (length_threshold : Nat) : List (List String) :=
  let count := fun s => (tokenize_fn s).length
  let units := (split_fn.getD defaultSplit) text
  mergeLoop count length_threshold [] (accumulate count window_size [] units)

/-- The Segmenter: split_text(text, window_size, tokenize_fn, split_fn,
length_threshold) returning the ordered list of chunk strings. Modelled from
the spec: the function itself lives in fast_tts/engine/utils.py, which is not
part of the visible source; its contract and algorithm are taken from the
spec, section 4.1. -/
def split_text (text : String) (window_size : Nat)
    (tokenize_fn : String → List Nat)
    (split_fn : Option (String → List String))
    (length_threshold : Nat) : List String :=
  (splitTextChunks text window_size tokenize_fn split_fn length_threshold).map joinAll

/-- A character-code tokenizer, used as a concrete tokenizing function in
witnesses: every character is one token. -/
def charTok (s : String) : List Nat :=
  s.data.map Char.toNat

/-! ### Content preservation lemmas -/

theorem string_eq_of_data {s t : String} (h : s.data = t.data) : s = t := by
  cases s; cases t; exact congrArg String.mk h

theorem splitChars_flatten (l acc : List Char) :
    (splitChars acc l).flatten = acc.reverse ++ l := by
  induction l generalizing acc with
  | nil =>
    by_cases h : acc.isEmpty
    · simp [splitChars, h, List.isEmpty_iff.mp h]
    · simp [splitChars, h]
  | cons c cs ih =>
    by_cases h : isSentenceEnd c
    · simp [splitChars, h, ih]
    · simp [splitChars, h, ih]

theorem joinAll_data (l : List String) :
    (joinAll l).data = (l.map String.data).flatten := by
  induction l with
  | nil => rfl
  | cons s rest ih => simp [joinAll, String.data_append, ih]

theorem defaultSplit_join (s : String) : joinAll (defaultSplit s) = s := by
  apply string_eq_of_data
  rw [joinAll_data, defaultSplit]
  have h1 : String.data ∘ String.mk = id := rfl
  rw [List.map_map, h1, List.map_id]
  simpa using splitChars_flatten s.data []

theorem accumulate_flatten (count : String → Nat) (w : Nat)
    (us cur : List String) :
    (accumulate count w cur us).flatten = cur.reverse ++ us := by
  induction us generalizing cur with
  | nil =>
    cases cur with
    | nil => simp [accumulate]
    | cons a l => simp [accumulate]
  | cons u us ih =>
    cases cur with
    | nil => simpa using ih [u]
    | cons a l =>
      by_cases h : chunkTokens count (a :: l) + count u ≤ w
      · simp [accumulate, h, ih]
      · simp [accumulate, h, ih]

theorem mergeLoop_flatten (count : String → Nat) (thr : Nat)
    (l : List (List String)) (buf : List String) :
    (mergeLoop count thr buf l).flatten = buf ++ l.flatten := by
  induction l generalizing buf with
  | nil =>
    by_cases h : buf.isEmpty
    · simp [mergeLoop, h, List.isEmpty_iff.mp h]
    · simp [mergeLoop, h]
  | cons c rest ih =>
    by_cases h : chunkTokens count (buf ++ c) < thr
    · simp [mergeLoop, h, ih]
    · simp [mergeLoop, h, ih]

theorem joinAll_append (a b : List String) :
    joinAll (a ++ b) = joinAll a ++ joinAll b := by
  apply string_eq_of_data
  simp [joinAll_data, String.data_append]

theorem joinAll_map_joinAll (l : List (List String)) :
    joinAll (l.map joinAll) = joinAll l.flatten := by
  induction l with
  | nil => rfl
  | cons c rest ih => simp [joinAll, List.flatten_cons, joinAll_append, ih]

theorem splitTextChunks_flatten (text : String) (w : Nat)
    (tok : String → List Nat) (fn : Option (String → List String)) (thr : Nat) :
    (splitTextChunks text w tok fn thr).flatten = (fn.getD defaultSplit) text := by
  unfold splitTextChunks
  rw [mergeLoop_flatten, accumulate_flatten]
  simp

/-! ### Window-bound and threshold lemmas -/

theorem chunkTokens_reverse (count : String → Nat) (c : List String) :
    chunkTokens count c.reverse = chunkTokens count c := by
  simp [chunkTokens, List.sum_reverse]

theorem accumulate_chunk_bound (count : String → Nat) (w : Nat)
    (us cur : List String)
    (hcur : chunkTokens count cur ≤ w ∨ ∃ u, cur = [u] ∧ w < count u) :
    ∀ c ∈ accumulate count w cur us,
      chunkTokens count c ≤ w ∨ ∃ u, c = [u] ∧ w < count u := by
  induction us generalizing cur with
  | nil =>
    cases cur with
    | nil => intro c hc; simp [accumulate] at hc
    | cons a l =>
      intro c hc
      rw [accumulate] at hc
      rcases List.mem_singleton.mp hc with rfl
      rcases hcur with h | ⟨u, hu, hw⟩
      · exact Or.inl (by rw [chunkTokens_reverse]; exact h)
      · exact Or.inr ⟨u, by rw [hu]; rfl, hw⟩
  | cons u us ih =>
    have hstart : chunkTokens count [u] ≤ w ∨ ∃ v, [u] = [v] ∧ w < count v := by
      rcases le_or_lt (count u) w with h | h
      · exact Or.inl (by simp [chunkTokens, h])
      · exact Or.inr ⟨u, rfl, h⟩
    cases cur with
    | nil =>
      intro c hc
      exact ih [u] hstart c hc
    | cons a l =>
      by_cases hfit : chunkTokens count (a :: l) + count u ≤ w
      · intro c hc
        rw [accumulate, if_pos hfit] at hc
        refine ih (u :: a :: l) (Or.inl ?_) c hc
        calc chunkTokens count (u :: a :: l)
            = chunkTokens count (a :: l) + count u := by
              simp [chunkTokens]; ring
          _ ≤ w := hfit
      · intro c hc
        rw [accumulate, if_neg hfit] at hc
        rcases List.mem_cons.mp hc with hc | hc
        · subst hc
          rcases hcur with h | ⟨v, hv, hw⟩
          · exact Or.inl (by rw [chunkTokens_reverse]; exact h)
          · exact Or.inr ⟨v, by rw [hv]; rfl, hw⟩
        · exact ih [u] hstart c hc

theorem mergeLoop_dropLast_ge (count : String → Nat) (thr : Nat)
    (l : List (List String)) (buf : List String) :
    ∀ c ∈ (mergeLoop count thr buf l).dropLast, thr ≤ chunkTokens count c := by
  induction l generalizing buf with
  | nil =>
    intro c hc
    by_cases h : buf.isEmpty <;> simp [mergeLoop, h] at hc
  | cons c0 rest ih =>
    intro c hc
    by_cases h : chunkTokens count (buf ++ c0) < thr
    · rw [mergeLoop] at hc
      simp only [h, if_pos] at hc
      exact ih (buf ++ c0) c hc
    · rw [mergeLoop] at hc
      simp only [h, if_neg, not_false_iff] at hc
      rcases hM : mergeLoop count thr [] rest with _ | ⟨m, ms⟩
      · rw [hM] at hc; simp at hc
      · rw [hM, List.dropLast_cons₂] at hc
        rcases List.mem_cons.mp hc with hc | hc
        · subst hc; exact Nat.le_of_not_lt h
        · exact ih [] c (by rw [hM]; exact hc)

theorem count_joinAll (count : String → Nat)
    (hadd : ∀ a b : String, count (a ++ b) = count a + count b)
    (c : List String) : count (joinAll c) = chunkTokens count c := by
  have hempty : count "" = 0 := by
    have h := hadd "" ""
    have : ("" ++ "" : String) = "" := rfl
    rw [this] at h
    omega
  induction c with
  | nil => simpa [joinAll, chunkTokens] using hempty
  | cons s rest ih => simp [joinAll, hadd, chunkTokens, ih]

theorem dropLast_map {α β : Type} (f : α → β) (l : List α) :
    (l.map f).dropLast = l.dropLast.map f := by
  induction l with
  | nil => rfl
  | cons a rest ih =>
    cases rest with
    | nil => rfl
    | cons b t => simp only [List.map_cons, List.dropLast_cons₂] at *; rw [ih]

/-! ### Claims about the Segmenter -/

/-- C1 (counterexample): with the character tokenizer, window_size 3 and
length_threshold 3, the text "a.bb." yields the single chunk "a.bb." whose
token count is 5 > 3, although that chunk is made of two sentence units
("a." and "bb."), each of which fits the window: the forward-merge pass
joined a sub-threshold chunk into its successor, breaking the window bound
on a chunk that is not a single indivisible unit. -/
theorem split_text_window_counterexample :
    split_text "a.bb." 3 charTok none 3 = ["a.bb."]
    ∧ 3 < (charTok "a.bb.").length
    ∧ defaultSplit "a.bb." = ["a.", "bb."]
    ∧ (charTok "a.").length ≤ 3 ∧ (charTok "bb.").length ≤ 3 := by
  refine ⟨by decide, by decide, by decide, by decide, by decide⟩

/-- C1 (amended): every chunk produced by the greedy accumulation pass of
the Segmenter (before the sub-threshold forward-merge pass) has cumulative
token count at most window_size, or else it is a single indivisible unit
whose token count alone exceeds window_size (such a unit becomes its own
chunk, never truncated). After the merge pass the bound can fail when a
sub-threshold chunk is merged forward into its successor. -/
theorem accumulate_window_bound (count : String → Nat) (w : Nat)
    (units : List String) (c : List String)
    (hc : c ∈ accumulate count w [] units) :
    chunkTokens count c ≤ w ∨ ∃ u, c = [u] ∧ w < count u :=
  accumulate_chunk_bound count w units []
    (Or.inl (by simp [chunkTokens])) c hc

/-- Witness for accumulate_window_bound at the counterexample input. -/
theorem accumulate_window_bound_witness :
    chunkTokens String.length ["a."] ≤ 3 ∨
      ∃ u, (["a."] : List String) = [u] ∧ 3 < String.length u :=
  accumulate_window_bound String.length 3 ["a.", "bb."] ["a."] (by decide)

/-- C2: for every input text, concatenating the ordered chunks returned by
split_text (with the default splitter) reconstructs the original text
exactly: no content is dropped or reordered, and no whitespace is introduced
at boundaries. -/
theorem split_text_lossless (tok : String → List Nat) (w thr : Nat)
    (text : String) :
    joinAll (split_text text w tok none thr) = text := by
  unfold split_text
  rw [joinAll_map_joinAll, splitTextChunks_flatten]
  exact defaultSplit_join text

/-- C3: after the forward-merge pass, every chunk returned by split_text,
except possibly the final one, has token count at least length_threshold;
stated for any additive token-count measure (token counts add up under
concatenation, as for the character tokenizer). -/
theorem split_text_merge_threshold (text : String) (w : Nat)
    (tok : String → List Nat) (fn : Option (String → List String)) (thr : Nat)
    (hadd : ∀ a b : String,
      (tok (a ++ b)).length = (tok a).length + (tok b).length) :
    ∀ c ∈ (split_text text w tok fn thr).dropLast, thr ≤ (tok c).length := by
  intro c hc
  unfold split_text at hc
  rw [dropLast_map] at hc
  rcases List.mem_map.mp hc with ⟨c0, hc0, rfl⟩
  rw [count_joinAll (fun s => (tok s).length) hadd]
  exact mergeLoop_dropLast_ge (fun s => (tok s).length) thr _ [] c0
    (by unfold splitTextChunks at hc0; exact hc0)

/-- Witness for split_text_merge_threshold: on "a.bb." with window 3 and
threshold 2 the first returned chunk "a." keeps at least 2 tokens. -/
theorem split_text_merge_threshold_witness :
    2 ≤ (charTok "a.").length :=
  split_text_merge_threshold "a.bb." 3 charTok none 2
    (fun a b => by simp [charTok]) "a." (by decide)

/-- C4: segmentation is deterministic; split_text is a pure function of the
text, window_size, tokenizing function, splitting function and
length_threshold, so two calls with the same arguments return identical
chunk sequences. -/
theorem split_text_deterministic (text : String) (w : Nat)
    (tok : String → List Nat) (fn : Option (String → List String))
    (thr : Nat) :
    split_text text w tok fn thr = split_text text w tok fn thr := rfl

/-- C5: on the empty input text, split_text returns the empty chunk
sequence, for every window_size, length_threshold and tokenizing
function. -/
theorem split_text_empty (tok : String → List Nat) (w thr : Nat) :
    split_text "" w tok none thr = [] := rfl

/-! ### The Segmenter consumes the tokenizing function only through counts -/

theorem chunkTokens_congr {c1 c2 : String → Nat} (h : ∀ s, c1 s = c2 s)
    (c : List String) : chunkTokens c1 c = chunkTokens c2 c := by
  unfold chunkTokens
  rw [List.map_congr_left fun s _ => h s]

theorem accumulate_congr {c1 c2 : String → Nat} (h : ∀ s, c1 s = c2 s)
    (w : Nat) (us cur : List String) :
    accumulate c1 w cur us = accumulate c2 w cur us := by
  induction us generalizing cur with
  | nil => cases cur <;> rfl
  | cons u us ih =>
    cases cur with
    | nil => rw [accumulate, accumulate, ih]
    | cons a l =>
      rw [accumulate, accumulate, chunkTokens_congr h, h u, ih, ih]

theorem mergeLoop_congr {c1 c2 : String → Nat} (h : ∀ s, c1 s = c2 s)
    (thr : Nat) (l : List (List String)) (buf : List String) :
    mergeLoop c1 thr buf l = mergeLoop c2 thr buf l := by
  induction l generalizing buf with
  | nil => rfl
  | cons c rest ih =>
    rw [mergeLoop, mergeLoop, chunkTokens_congr h, ih, ih]

theorem split_text_count_congr (text : String) (w : Nat)
    (t1 t2 : String → List Nat) (fn : Option (String → List String))
    (thr : Nat) (h : ∀ s, (t1 s).length = (t2 s).length) :
    split_text text w t1 fn thr = split_text text w t2 fn thr := by
  simp only [split_text, splitTextChunks]
  rw [accumulate_congr h, mergeLoop_congr h]

/-! ### The BaseEngine facade, from fast_tts/engine/base_engine.py -/

/-- The tokenizer interface of the generator: encode takes the flags
add_special_tokens, truncation and padding (in that order) and the text,
and returns the token id sequence. -/
structure Tokenizer where
  encode : Bool → Bool → Bool → String → List Nat

/-- The generator the engine is initialised with; only its tokenizer is
relevant to segmentation. -/
structure Generator where
  tokenizer : Tokenizer

/-- The state of a BaseEngine relevant to split_text: the generator built
during initialisation. -/
structure BaseEngine where
  generator : Generator

/-- BaseEngine.split_text: builds tokenize_fn as the generator tokenizer
encode with add_special_tokens=False, truncation=False, padding=False, and
delegates to the Segmenter with the given window_size, split_fn and
length_threshold. Embeds lines 72-90 of base_engine.py. -/
def BaseEngine.split_text (e : BaseEngine) (text : String)
    (length_threshold window_size : Nat)
    (split_fn : Option (String → List String)) : List String :=
  let tokenize_fn := e.generator.tokenizer.encode false false false
  FastTTS.split_text text window_size tokenize_fn split_fn length_threshold

/-- C6: the tokenizing function BaseEngine.split_text hands to the
Segmenter is the generator tokenizer encode applied with no special tokens,
no truncation and no padding; and the Segmenter consumes it purely as a
length-budget measure: any other tokenizer producing the same token counts
yields the same chunks. -/
theorem base_engine_tokenize_fn (e : BaseEngine) (text : String)
    (thr w : Nat) (fn : Option (String → List String))
    (t2 : String → List Nat)
    (h : ∀ s, (e.generator.tokenizer.encode false false false s).length
      = (t2 s).length) :
    BaseEngine.split_text e text thr w fn
      = split_text text w (e.generator.tokenizer.encode false false false) fn thr
    ∧ BaseEngine.split_text e text thr w fn = split_text text w t2 fn thr :=
  ⟨rfl, split_text_count_congr text w _ t2 fn thr h⟩

/-- A concrete engine whose tokenizer encodes text as character codes,
ignoring the flags; used to witness base_engine_tokenize_fn. -/
def testEngine : BaseEngine :=
  ⟨⟨⟨fun _ _ _ s => charTok s⟩⟩⟩

/-- Witness for base_engine_tokenize_fn at a concrete engine and text. -/
theorem base_engine_tokenize_fn_witness :
    BaseEngine.split_text testEngine "a.bb." 2 3 none
      = split_text "a.bb." 3
          (testEngine.generator.tokenizer.encode false false false) none 2
    ∧ BaseEngine.split_text testEngine "a.bb." 2 3 none
      = split_text "a.bb." 3 charTok none 2 :=
  base_engine_tokenize_fn testEngine "a.bb." 2 3 none charTok (fun _ => rfl)

/-! ### The declared caller-facing surface of BaseEngine

Lines 92-186 of base_engine.py declare the abstract generation entry points.
Each is transcribed below with its operation family, batch-vs-streaming
form, parameter list and defaulted shared parameters. -/

/-- The generation operation families declared on BaseEngine. -/
inductive OpFamily
  | speak
  | clone_voice
  | generate_voice
deriving DecidableEq

/-- One declared generation entry point: its method name, its family,
whether it is the streaming form, and its declared parameter names in
order (kwargs catch-all omitted). -/
structure EntryPoint where
  method : String
  family : OpFamily
  streaming : Bool
  params : List String
deriving DecidableEq

/-- The shared sampling and chunking parameters of section 4.2. -/
def sharedParams : List String :=
  ["temperature", "top_k", "top_p", "max_tokens", "length_threshold",
   "window_size", "split_fn"]

/-- speak_async, lines 92-105. -/
def speak_async_sig : EntryPoint :=
  ⟨"speak_async", OpFamily.speak, false,
   ["name", "text", "temperature", "top_k", "top_p", "max_tokens",
    "length_threshold", "window_size", "split_fn"]⟩

/-- speak_stream_async, lines 107-120. -/
def speak_stream_async_sig : EntryPoint :=
  ⟨"speak_stream_async", OpFamily.speak, true,
   ["name", "text", "temperature", "top_k", "top_p", "max_tokens",
    "length_threshold", "window_size", "split_fn"]⟩

/-- clone_voice_async, lines 122-136. -/
def clone_voice_async_sig : EntryPoint :=
  ⟨"clone_voice_async", OpFamily.clone_voice, false,
   ["text", "reference_audio", "reference_text", "temperature", "top_k",
    "top_p", "max_tokens", "length_threshold", "window_size", "split_fn"]⟩

/-- clone_voice_stream_async, lines 138-152. -/
def clone_voice_stream_async_sig : EntryPoint :=
  ⟨"clone_voice_stream_async", OpFamily.clone_voice, true,
   ["text", "reference_audio", "reference_text", "temperature", "top_k",
    "top_p", "max_tokens", "length_threshold", "window_size", "split_fn"]⟩

/-- generate_voice_async, lines 154-169. -/
def generate_voice_async_sig : EntryPoint :=
  ⟨"generate_voice_async", OpFamily.generate_voice, false,
   ["text", "gender", "pitch", "speed", "temperature", "top_k", "top_p",
    "max_tokens", "length_threshold", "window_size", "split_fn"]⟩

/-- generate_voice_stream_async, lines 171-186. -/
def generate_voice_stream_async_sig : EntryPoint :=
  ⟨"generate_voice_stream_async", OpFamily.generate_voice, true,
   ["text", "gender", "pitch", "speed", "temperature", "top_k", "top_p",
    "max_tokens", "length_threshold", "window_size", "split_fn"]⟩

/-- All generation entry points declared on BaseEngine, in source order. -/
def baseEngineEntryPoints : List EntryPoint :=
  [speak_async_sig, speak_stream_async_sig, clone_voice_async_sig,
   clone_voice_stream_async_sig, generate_voice_async_sig,
   generate_voice_stream_async_sig]

/-- C7 (counterexample): BaseEngine declares six generation entry points in
three operation families, not eight entry points in four families. -/
theorem entry_point_count_counterexample :
    baseEngineEntryPoints.length = 6
    ∧ baseEngineEntryPoints.length ≠ 8
    ∧ (baseEngineEntryPoints.map EntryPoint.family).dedup.length = 3
    ∧ (baseEngineEntryPoints.map EntryPoint.family).dedup.length ≠ 4 := by
  refine ⟨by decide, by decide, by decide, by decide⟩

/-- C7 (amended): the caller-facing surface of the engine consists of
exactly three generation operation families (speak, clone_voice,
generate_voice), each offered in both a batch and a streaming form, for a
total of exactly six entry points, each accepting the sampling parameters
(temperature, top_k, top_p, max_tokens) and the chunking parameters
(length_threshold, window_size, optional custom splitter). -/
theorem entry_point_surface :
    baseEngineEntryPoints.length = 6
    ∧ (∀ f : OpFamily, ∃ e ∈ baseEngineEntryPoints,
        e.family = f ∧ e.streaming = false)
    ∧ (∀ f : OpFamily, ∃ e ∈ baseEngineEntryPoints,
        e.family = f ∧ e.streaming = true)
    ∧ (∀ e ∈ baseEngineEntryPoints, ∀ p ∈ sharedParams, p ∈ e.params) := by
  refine ⟨by decide, ?_, ?_, by decide⟩
  · intro f; cases f
    · exact ⟨speak_async_sig, by decide, by decide, by decide⟩
    · exact ⟨clone_voice_async_sig, by decide, by decide, by decide⟩
    · exact ⟨generate_voice_async_sig, by decide, by decide, by decide⟩
  · intro f; cases f
    · exact ⟨speak_stream_async_sig, by decide, by decide, by decide⟩
    · exact ⟨clone_voice_stream_async_sig, by decide, by decide, by decide⟩
    · exact ⟨generate_voice_stream_async_sig, by decide, by decide, by decide⟩

/-- The defaulted shared parameters of one entry point: temperature, top_k,
top_p, max_tokens, length_threshold, window_size, and whether split_fn
defaults to None. -/
structure SharedDefaults where
  temperature : ℚ
  top_k : Nat
  top_p : ℚ
  max_tokens : Nat
  length_threshold : Nat
  window_size : Nat
  split_fn_is_none : Bool

/-- Shared defaults of speak_async, lines 97-103. -/
def speak_async_defaults : SharedDefaults :=
  ⟨0.9, 50, 0.95, 4096, 50, 50, true⟩

/-- Shared defaults of speak_stream_async, lines 112-118. -/
def speak_stream_async_defaults : SharedDefaults :=
  ⟨0.9, 50, 0.95, 4096, 50, 50, true⟩

/-- Shared defaults of clone_voice_async, lines 128-134. -/
def clone_voice_async_defaults : SharedDefaults :=
  ⟨0.9, 50, 0.95, 4096, 50, 50, true⟩

/-- Shared defaults of clone_voice_stream_async, lines 144-150. -/
def clone_voice_stream_async_defaults : SharedDefaults :=
  ⟨0.9, 50, 0.95, 4096, 50, 50, true⟩

/-- Shared defaults of generate_voice_async, lines 161-167. -/
def generate_voice_async_defaults : SharedDefaults :=
  ⟨0.9, 50, 0.95, 4096, 50, 50, true⟩

/-- Shared defaults of generate_voice_stream_async, lines 178-184. -/
def generate_voice_stream_async_defaults : SharedDefaults :=
  ⟨0.9, 50, 0.95, 4096, 50, 50, true⟩

/-- C10: all six generation entry points declare identical defaults for the
shared parameters: temperature 0.9, top_k 50, top_p 0.95, max_tokens 4096,
length_threshold 50, window_size 50 and split_fn None, so omitting any of
them is equivalent to passing those values explicitly, uniformly across the
entry points. -/
theorem shared_defaults_uniform :
    speak_async_defaults = ⟨0.9, 50, 0.95, 4096, 50, 50, true⟩
    ∧ speak_stream_async_defaults = speak_async_defaults
    ∧ clone_voice_async_defaults = speak_async_defaults
    ∧ clone_voice_stream_async_defaults = speak_async_defaults
    ∧ generate_voice_async_defaults = speak_async_defaults
    ∧ generate_voice_stream_async_defaults = speak_async_defaults :=
  ⟨rfl, rfl, rfl, rfl, rfl, rfl⟩

/-! ### Batch and streaming orchestration over chunks

Modelled from the spec: the concrete engines implementing the abstract entry
points of BaseEngine are not part of the visible source. Per the spec, the
batch variant segments the text, invokes per-chunk generation in order and
concatenates the waveforms; the streaming variant forwards the frames of each chunk in order, chunk N+1 never emitting before chunk N finishes. `gen`
abstracts the per-chunk backend generation, mapping one chunk to its
waveform (a list of audio samples or frames). -/

/-- Batch assembly loop: generate each chunk in order, appending each
per-chunk waveform to the accumulated waveform. Modelled from the spec,
section 4.2 (batch variant). -/
def generateBatch {α : Type} (gen : String → List α) (chunks : List String) :
    List α :=
  chunks.foldl (fun acc c => acc ++ gen c) []

/-- speak_async orchestration: segment the text with split_text, then run
the batch assembly loop over the chunks. Modelled from the spec. -/
def speakAsyncModel {α : Type} (tok : String → List Nat) (w thr : Nat)
    (gen : String → List α) (text : String) : List α :=
  generateBatch gen (split_text text w tok none thr)

theorem generateBatch_go {α : Type} (gen : String → List α)
    (chunks : List String) (acc : List α) :
    chunks.foldl (fun a c => a ++ gen c) acc
      = acc ++ (chunks.map gen).flatten := by
  induction chunks generalizing acc with
  | nil => simp
  | cons c rest ih => simp [List.foldl_cons, ih]

/-- C8: batch mode segments the text, generates each chunk in left-to-right
order and returns the concatenation of the per-chunk waveforms in chunk
order, so the waveform length is the sum of the per-chunk waveform
lengths. -/
theorem speak_async_batch_concat {α : Type} (tok : String → List Nat)
    (w thr : Nat) (gen : String → List α) (text : String) :
    speakAsyncModel tok w thr gen text
      = ((split_text text w tok none thr).map gen).flatten
    ∧ (speakAsyncModel tok w thr gen text).length
      = (((split_text text w tok none thr).map gen).map List.length).sum := by
  have h := generateBatch_go gen (split_text text w tok none thr) []
  refine ⟨by simpa [speakAsyncModel, generateBatch] using h, ?_⟩
  rw [speakAsyncModel, generateBatch, h]
  simp [List.length_flatten]

/-- Tag the frames of chunk `i`, starting at frame index `j`: each frame is
paired with its (chunk_index, frame_index) provenance, in generation
order. -/
def tagChunk {α : Type} (i : Nat) : Nat → List α → List (Nat × Nat × α)
  | _, [] => []
  | j, f :: fs => (i, j, f) :: tagChunk i (j + 1) fs

/-- Streaming emission loop: for each chunk in order, emit all frames of that
chunk (tagged with their chunk and frame indices) before the next
chunk emits anything. Modelled from the spec, section 4.2 (streaming
variant). -/
def streamEmit {α : Type} (gen : String → List α) :
    Nat → List String → List (Nat × Nat × α)
  | _, [] => []
  | i, c :: cs => tagChunk i 0 (gen c) ++ streamEmit gen (i + 1) cs

/-- speak_stream_async orchestration: segment the text with split_text and
stream the chunks in order. Modelled from the spec. -/
def speakStreamModel {α : Type} (tok : String → List Nat) (w thr : Nat)
    (gen : String → List α) (text : String) : List (Nat × Nat × α) :=
  streamEmit gen 0 (split_text text w tok none thr)

/-- Strict emission order on tagged frames: the chunk index increases, or
stays equal while the frame index increases. -/
def emitLt {α : Type} (a b : Nat × Nat × α) : Prop :=
  a.1 < b.1 ∨ (a.1 = b.1 ∧ a.2.1 < b.2.1)

theorem tagChunk_frames {α : Type} (i : Nat) (fs : List α) (j : Nat) :
    (tagChunk i j fs).map (fun t => t.2.2) = fs := by
  induction fs generalizing j with
  | nil => rfl
  | cons f fs ih => simp [tagChunk, ih]

theorem streamEmit_frames {α : Type} (gen : String → List α)
    (cs : List String) (i : Nat) :
    (streamEmit gen i cs).map (fun t => t.2.2) = (cs.map gen).flatten := by
  induction cs generalizing i with
  | nil => rfl
  | cons c cs ih => simp [streamEmit, tagChunk_frames, ih]

theorem mem_tagChunk {α : Type} (i j : Nat) (fs : List α)
    (t : Nat × Nat × α) (ht : t ∈ tagChunk i j fs) : t.1 = i ∧ j ≤ t.2.1 := by
  induction fs generalizing j with
  | nil => simp [tagChunk] at ht
  | cons f fs ih =>
    rcases List.mem_cons.mp ht with rfl | ht
    · exact ⟨rfl, Nat.le_refl j⟩
    · rcases ih (j + 1) ht with ⟨h1, h2⟩
      exact ⟨h1, Nat.le_of_succ_le h2⟩

theorem mem_streamEmit {α : Type} (gen : String → List α) (cs : List String)
    (i : Nat) (t : Nat × Nat × α) (ht : t ∈ streamEmit gen i cs) :
    i ≤ t.1 := by
  induction cs generalizing i with
  | nil => simp [streamEmit] at ht
  | cons c cs ih =>
    rcases List.mem_append.mp ht with ht | ht
    · exact (mem_tagChunk i 0 (gen c) t ht).1 ▸ Nat.le_refl i
    · exact Nat.le_of_succ_le (ih (i + 1) ht)

theorem chain_tagChunk {α : Type} (i : Nat) (fs : List α) (j : Nat) :
    List.Chain' emitLt (tagChunk i j fs) := by
  induction fs generalizing j with
  | nil => exact List.chain'_nil
  | cons f fs ih =>
    cases fs with
    | nil => simp [tagChunk]
    | cons g gs =>
      rw [tagChunk, tagChunk]
      refine List.chain'_cons.mpr ⟨Or.inr ⟨rfl, Nat.lt_succ_self j⟩, ?_⟩
      rw [← tagChunk]
      exact ih (j + 1)

theorem chain_streamEmit {α : Type} (gen : String → List α)
    (cs : List String) (i : Nat) :
    List.Chain' emitLt (streamEmit gen i cs) := by
  induction cs generalizing i with
  | nil => exact List.chain'_nil
  | cons c cs ih =>
    rw [streamEmit]
    refine List.chain'_append.mpr ⟨chain_tagChunk i (gen c) 0, ih (i + 1), ?_⟩
    intro x hx y hy
    have hxm := mem_tagChunk i 0 (gen c) x (List.mem_of_mem_getLast? hx)
    have hym := mem_streamEmit gen cs (i + 1) y (List.mem_of_mem_head? hy)
    exact Or.inl (by omega)

/-- C9: in streaming mode the emitted frames, in emission order, are
exactly the concatenation of the per-chunk frame sequences in left-to-right
chunk order, and the (chunk_index, frame_index) tags are strictly
increasing in lexicographic order along the emission: chunk N+1 never emits
a frame before all frames of chunk N are out, and within a chunk frames
stream in generation order. -/
theorem speak_stream_order {α : Type} (tok : String → List Nat)
    (w thr : Nat) (gen : String → List α) (text : String) :
    (speakStreamModel tok w thr gen text).map (fun t => t.2.2)
      = ((split_text text w tok none thr).map gen).flatten
    ∧ List.Chain' emitLt (speakStreamModel tok w thr gen text) :=
  ⟨streamEmit_frames gen (split_text text w tok none thr) 0,
   chain_streamEmit gen (split_text text w tok none thr) 0⟩

end FastTTS
